import Mathlib

/-
Verification of the antenna radiation-pattern core (src/app.py) against its
natural-language specification.

The numeric kernel of app.py is embedded shallowly:
  * arrays become `List` values; numpy reductions (`np.max`, `np.min`,
    `np.argmax`) become `listMax`, `listMin`, `argmaxIdx`;
  * the float-generic metric extractor (`calculate_gaussian_metrics`, the
    module-level fallback dict) is embedded polymorphically over a
    `LinearOrderedField`, so it can be evaluated exactly at `ℚ` and applied
    at `ℝ`;
  * the trigonometric pattern formulas (`dipole_pattern`,
    `ula_array_pattern`, the generic cos³ pattern) are embedded over `ℝ`
    with exact real arithmetic; `np.nan_to_num` is the identity there, since
    exact division is total (the IEEE-sensitive division by a zero maximum
    is modelled separately by `normalize_ieee`, where `none` stands for a
    non-finite IEEE result);
  * `scipy.optimize.curve_fit` is external library code, not part of this
    repository; it is abstracted as a `solver` argument returning
    `some popt` on convergence and `none` for the `RuntimeError` raised on
    non-convergence, exactly the two outcomes the source distinguishes.
-/

namespace AntennaViz

/-- Embedding of `np.max` on a list: maximum of the elements.
`np.max` raises on an empty array; we return 0 there (the empty case is
never reached by the program, whose arrays have fixed positive length). -/
def listMax {α : Type} [LinearOrder α] [Zero α] : List α → α
  | [] => 0
  | [x] => x
  | x :: y :: tl => max x (listMax (y :: tl))

/-- Embedding of `np.min` on a list: minimum of the elements (0 for `[]`). -/
def listMin {α : Type} [LinearOrder α] [Zero α] : List α → α
  | [] => 0
  | [x] => x
  | x :: y :: tl => min x (listMin (y :: tl))

/-- Embedding of `np.argmax`: index of the first occurrence of the maximal
element (`np.argmax` documents first-occurrence semantics for ties). -/
def argmaxIdx {α : Type} [LinearOrder α] [Zero α] (l : List α) : ℕ :=
  l.findIdx (fun y => decide (listMax l ≤ y))

theorem le_listMax {α : Type} [LinearOrder α] [Zero α] {l : List α} {x : α}
    (hx : x ∈ l) : x ≤ listMax l := by
  induction l with
  | nil => cases hx
  | cons a tl ih =>
    cases tl with
    | nil =>
      rcases List.mem_singleton.mp hx with rfl
      exact le_of_eq rfl
    | cons b tl2 =>
      rcases List.mem_cons.mp hx with rfl | hmem
      · exact le_max_left _ _
      · exact le_trans (ih hmem) (le_max_right _ _)

theorem listMax_le {α : Type} [LinearOrder α] [Zero α] {l : List α} {b : α}
    (hne : l ≠ []) (hb : ∀ x ∈ l, x ≤ b) : listMax l ≤ b := by
  induction l with
  | nil => exact absurd rfl hne
  | cons a tl ih =>
    cases tl with
    | nil => exact hb a (List.mem_singleton.mpr rfl)
    | cons c tl2 =>
      refine max_le (hb a (List.mem_cons_self _ _)) (ih (by simp) ?_)
      intro x hx
      exact hb x (List.mem_cons_of_mem _ hx)

theorem listMax_mem {α : Type} [LinearOrder α] [Zero α] {l : List α}
    (hne : l ≠ []) : listMax l ∈ l := by
  induction l with
  | nil => exact absurd rfl hne
  | cons a tl ih =>
    cases tl with
    | nil => exact List.mem_singleton.mpr rfl
    | cons c tl2 =>
      rcases max_choice a (listMax (c :: tl2)) with h | h
      · rw [listMax, h]
        exact List.mem_cons_self _ _
      · rw [listMax, h]
        exact List.mem_cons_of_mem _ (ih (by simp))

theorem listMax_nonneg {α : Type} [LinearOrder α] [Zero α] {l : List α}
    (h : ∀ x ∈ l, 0 ≤ x) : 0 ≤ listMax l := by
  cases l with
  | nil => exact le_of_eq rfl
  | cons a tl => exact h _ (listMax_mem (by simp))

/-- The first maximal index is in range for a nonempty list. -/
theorem argmaxIdx_lt_length {α : Type} [LinearOrder α] [Zero α]
    {l : List α} (hne : l ≠ []) : argmaxIdx l < l.length := by
  apply List.findIdx_lt_length_of_exists
  exact ⟨listMax l, listMax_mem hne, by simp⟩

/-- The value at `argmaxIdx` is the maximum. -/
theorem getD_argmaxIdx {α : Type} [LinearOrder α] [Zero α]
    {l : List α} (hne : l ≠ []) : l.getD (argmaxIdx l) 0 = listMax l := by
  have hlt : argmaxIdx l < l.length := argmaxIdx_lt_length hne
  have hp : decide (listMax l ≤ l[argmaxIdx l]) = true := by
    have := List.findIdx_getElem (p := fun y => decide (listMax l ≤ y))
      (w := hlt)
    exact this
  have hle : listMax l ≤ l[argmaxIdx l] := of_decide_eq_true hp
  have hge : l[argmaxIdx l] ≤ listMax l := le_listMax (l.getElem_mem hlt)
  have : l.getD (argmaxIdx l) 0 = l[argmaxIdx l] := by
    simp [List.getD_eq_getElem?_getD, List.getElem?_eq_getElem hlt]
  rw [this]
  exact le_antisymm hge hle

/-- First-occurrence semantics: `argmaxIdx` is at most any maximal index. -/
theorem argmaxIdx_le_of_max {α : Type} [LinearOrder α] [Zero α]
    {l : List α} {i : ℕ} (hi : i < l.length)
    (hmax : l.getD i 0 = listMax l) : argmaxIdx l ≤ i := by
  by_contra hlt
  push_neg at hlt
  have hfalse := List.not_of_lt_findIdx
    (p := fun y => decide (listMax l ≤ y)) (i := i) hlt
  have hgetD : l.getD i 0 = l[i] := by
    simp [List.getD_eq_getElem?_getD, List.getElem?_eq_getElem hi]
  rw [hgetD] at hmax
  simp [hmax] at hfalse

/-- Embedding of the metrics value: the dict built by
`calculate_gaussian_metrics` on success and by the module-level fallback
(app.py lines 279-285); `angular_width` and `side_lobe_level` are `None`
exactly on the fallback path. -/
structure Metrics (α : Type) where
  main_lobe_magnitude : α
  main_lobe_direction : α
  angular_width : Option α
  side_lobe_level : Option α
deriving DecidableEq, Repr

/-- The nominal main-lobe peak angle `theta_deg[max_idx]` with
`max_idx = np.argmax(pattern_norm)` (app.py line 177). -/
def peak_angle {α : Type} [LinearOrderedField α]
    (theta_deg pattern_norm : List α) : α :=
  theta_deg.getD (argmaxIdx pattern_norm) 0

/-- Embedding of
`np.where((theta_deg >= peak - 20) & (theta_deg <= peak + 20))[0]`
(app.py lines 178-179): the indices whose angle is within the +-20 degree
window around the peak angle. -/
def window_indices {α : Type} [LinearOrderedField α]
    (theta_deg pattern_norm : List α) : List ℕ :=
  (List.range theta_deg.length).filter (fun i =>
    decide (peak_angle theta_deg pattern_norm - 20 ≤ theta_deg.getD i 0) &&
    decide (theta_deg.getD i 0 ≤ peak_angle theta_deg pattern_norm + 20))

/-- The windowed angle data `theta_deg[indices]` (app.py line 182). -/
def xdata {α : Type} [LinearOrderedField α]
    (theta_deg pattern_norm : List α) : List α :=
  (window_indices theta_deg pattern_norm).map (fun i => theta_deg.getD i 0)

/-- The windowed gain data `pattern_norm[indices]` (app.py line 183). -/
def ydata {α : Type} [LinearOrderedField α]
    (theta_deg pattern_norm : List α) : List α :=
  (window_indices theta_deg pattern_norm).map (fun i => pattern_norm.getD i 0)

/-- The fit seed `p0 = [max(ydata), theta_deg[max_idx], 5.0, min(ydata)]`
(app.py line 184), as the tuple (a, mu, sigma, offset). -/
def p0 {α : Type} [LinearOrderedField α]
    (theta_deg pattern_norm : List α) : α × α × α × α :=
  (listMax (ydata theta_deg pattern_norm),
   peak_angle theta_deg pattern_norm,
   5,
   listMin (ydata theta_deg pattern_norm))

/-- Embedding of `pattern_norm[outside_mask]` with
`outside_mask = (theta_deg < mu - 20) | (theta_deg > mu + 20)`
(app.py lines 193-194): gains of the samples whose angle lies strictly
outside the window centered at the fitted mean. -/
def outside_samples {α : Type} [LinearOrderedField α]
    (theta_deg pattern_norm : List α) (mu : α) : List α :=
  ((theta_deg.zip pattern_norm).filter (fun tp =>
    decide (tp.1 < mu - 20) || decide (mu + 20 < tp.1))).map Prod.snd

/-- Embedding of
`side_lobe_level = np.max(side_lobes) if len(side_lobes) > 0 else 0`
(app.py line 195). -/
def side_lobe_level_of {α : Type} [LinearOrderedField α]
    (theta_deg pattern_norm : List α) (mu : α) : α :=
  match outside_samples theta_deg pattern_norm mu with
  | [] => 0
  | x :: tl => listMax (x :: tl)

/-- Embedding of `calculate_gaussian_metrics` (app.py lines 176-201).
`scipy.optimize.curve_fit` is external library code and is abstracted as
the `solver` argument, receiving the windowed xdata, ydata and the seed
`p0`; `some popt` models convergence, `none` models the `RuntimeError`
which the source catches and turns into `return None`. -/
def calculate_gaussian_metrics {α : Type} [LinearOrderedField α]
    (solver : List α → List α → α × α × α × α → Option (α × α × α × α))
    (theta_deg pattern_norm : List α) : Option (Metrics α) :=
  if (window_indices theta_deg pattern_norm).length < 5 then none
  else
    match solver (xdata theta_deg pattern_norm) (ydata theta_deg pattern_norm)
        (p0 theta_deg pattern_norm) with
    | none => none
    | some (a, mu, sigma, offset) =>
      some { main_lobe_magnitude := a + offset
             main_lobe_direction := mu
             angular_width := some (2.355 * sigma)
             side_lobe_level :=
               some (side_lobe_level_of theta_deg pattern_norm mu) }

/-- The module-level fallback dict (app.py lines 279-285):
maximum gain, angle of the (first) peak sample, absent width and
side-lobe level. -/
def fallback_metrics {α : Type} [LinearOrderedField α]
    (theta_deg pattern_norm : List α) : Metrics α :=
  { main_lobe_magnitude := listMax pattern_norm
    main_lobe_direction := theta_deg.getD (argmaxIdx pattern_norm) 0
    angular_width := none
    side_lobe_level := none }

/-- The module-level metric selection (app.py lines 278-285):
`metrics = calculate_gaussian_metrics(...)`, replaced by the fallback dict
when it is `None`. -/
def pipeline_metrics {α : Type} [LinearOrderedField α]
    (solver : List α → List α → α × α × α × α → Option (α × α × α × α))
    (theta_deg pattern : List α) : Metrics α :=
  (calculate_gaussian_metrics solver theta_deg pattern).getD
    (fallback_metrics theta_deg pattern)

/-- Module-level normalization `pattern /= np.max(pattern)` (app.py
line 275) with its IEEE behaviour made explicit: when the maximum is 0
every sample becomes a non-finite IEEE value (NaN from 0/0, +-inf from
x/0), modelled as `none`; otherwise the finite quotient `some (x / max)`. -/
def normalize_ieee {α : Type} [LinearOrderedField α]
    (pattern : List α) : List (Option α) :=
  pattern.map (fun x =>
    if listMax pattern = 0 then none else some (x / listMax pattern))

/-- Module-level normalization `pattern /= np.max(pattern)` (app.py
line 275) over exact arithmetic (total division). -/
def normalize {α : Type} [LinearOrderedField α] (pattern : List α) : List α :=
  pattern.map (fun x => x / listMax pattern)

/-- Embedding of the 4-parameter Gaussian model `gaussian` (app.py
lines 173-174), the shape fitted by the abstracted solver. -/
noncomputable def gaussian (x a mu sigma offset : ℝ) : ℝ :=
  a * Real.exp (-(x - mu) ^ 2 / (2 * sigma ^ 2)) + offset

/-- Embedding of `dipole_pattern` (app.py lines 157-163): with `k = 2*pi`,
`|cos(k*L/2*cos(theta)) - cos(k*L/2)| / (sin(theta) + 1e-9)`.
The trailing `np.nan_to_num` is the identity here: exact real division is
total and all intermediate values are finite reals. -/
noncomputable def dipole_pattern (length_lambda theta : ℝ) : ℝ :=
  |Real.cos (2 * Real.pi * length_lambda / 2 * Real.cos theta) -
    Real.cos (2 * Real.pi * length_lambda / 2)| /
  (Real.sin theta + 1e-9)

/-- The array phase `psi = 2*pi*spacing*cos(theta) + deg2rad(phase_deg)`
(app.py line 166). -/
noncomputable def psi (spacing phase_deg theta : ℝ) : ℝ :=
  2 * Real.pi * spacing * Real.cos theta + phase_deg * Real.pi / 180

/-- One raw array-factor sample of `ula_array_pattern` (app.py
lines 167-170): `|sin(N*psi/2) / (sin(psi/2) + 1e-9)|`; `np.nan_to_num`
is again the identity over exact reals. -/
noncomputable def ula_af (num_elements : ℕ) (spacing phase_deg theta : ℝ) :
    ℝ :=
  |Real.sin (num_elements * psi spacing phase_deg theta / 2) /
    (Real.sin (psi spacing phase_deg theta / 2) + 1e-9)|

/-- Embedding of `ula_array_pattern` (app.py lines 165-171): the raw array
factor over the angle grid, self-normalized by its own maximum
(`af / np.max(af)`, line 171). -/
noncomputable def ula_array_pattern (num_elements : ℕ)
    (spacing phase_deg : ℝ) (theta : List ℝ) : List ℝ :=
  (theta.map (ula_af num_elements spacing phase_deg)).map
    (fun x => x / listMax (theta.map (ula_af num_elements spacing phase_deg)))

/-- The antenna-model dispatch of app.py lines 261-273 is on the model-name
strings; we embed the closed string set as an enumeration:
`dipoleAntenna` and `monopoleAntenna` are the two names in
`["Dipole Antenna", "Monopole Antenna"]`, `linearArray` is
`"Linear Array"`, and `otherModel` is every other model name (the `else`
branch). -/
inductive AntennaModel where
  | dipoleAntenna
  | monopoleAntenna
  | linearArray
  | otherModel
deriving DecidableEq, Repr

/-- Embedding of the module-level pattern calculation (app.py
lines 261-273), before the final sanitize-and-normalize step: for dipole
and monopole, `wavelength = 3e8 / (freq * 1e6)`,
`normalized_length = length / wavelength`, then `dipole_pattern` over the
grid; for the linear array, `ula_array_pattern`; otherwise the generic
placeholder `np.abs(np.cos(theta) ** 3)`.  The dict lookups
`param_values.get(...)` with their defaults are replaced by explicit typed
arguments. -/
noncomputable def compute_pattern (model : AntennaModel)
    (length_m freq_mhz : ℝ) (n : ℕ) (d phase : ℝ) (theta : List ℝ) :
    List ℝ :=
  match model with
  | AntennaModel.dipoleAntenna =>
      theta.map (dipole_pattern (length_m / (3e8 / (freq_mhz * 1e6))))
  | AntennaModel.monopoleAntenna =>
      theta.map (dipole_pattern (length_m / (3e8 / (freq_mhz * 1e6))))
  | AntennaModel.linearArray => ula_array_pattern n d phase theta
  | AntennaModel.otherModel => theta.map (fun t => |Real.cos t ^ 3|)

/-- A slider widget specification `(min, max, value, step)` as passed to
`st.sidebar.slider` in `get_param_input` (app.py lines 129-154). -/
structure SliderSpec where
  minVal : ℚ
  maxVal : ℚ
  initVal : ℚ
  stepVal : ℚ
deriving DecidableEq, Repr

/-- The parameter-name strings dispatched on by `get_param_input` (app.py
lines 129-154), embedded as an enumeration of the closed string set. -/
inductive ParamName where
  | antennaLength
  | apertureSize
  | operatingFrequency
  | feedPoint
  | arrayElements
  | elementSpacing
  | amplitudeDistribution
  | phaseDifference
  | polarization
  | groundPlaneHeight
  | reflectorsDirectors
deriving DecidableEq, Repr

/-- Embedding of `get_param_input` (app.py lines 129-154): the slider
bounds per numeric parameter; `none` for the selectbox parameters
(Feed Point, Amplitude Distribution, Polarization), which carry no numeric
range. -/
def get_param_input : ParamName → Option SliderSpec
  | ParamName.antennaLength => some ⟨1/100, 5, 1/2, 1/100⟩
  | ParamName.apertureSize => some ⟨1/100, 10, 1, 1/100⟩
  | ParamName.operatingFrequency => some ⟨100, 3000, 900, 10⟩
  | ParamName.feedPoint => none
  | ParamName.arrayElements => some ⟨2, 32, 8, 1⟩
  | ParamName.elementSpacing => some ⟨1/10, 2, 1/2, 1/100⟩
  | ParamName.amplitudeDistribution => none
  | ParamName.phaseDifference => some ⟨-180, 180, 0, 1⟩
  | ParamName.polarization => none
  | ParamName.groundPlaneHeight => some ⟨0, 10, 1, 1/10⟩
  | ParamName.reflectorsDirectors => some ⟨0, 5, 0, 1⟩

/-- A value lies within the slider range of a parameter: the input boundary
of the application (the slider widget cannot produce values outside its
`(min, max)` range). -/
def inSlider (p : ParamName) (v : ℚ) : Prop :=
  ∃ s, get_param_input p = some s ∧ s.minVal ≤ v ∧ v ≤ s.maxVal

/-- A list whose elements are all nonnegative has a nonnegative `getD`
with default 0 at every index. -/
theorem getD_nonneg {α : Type} [LinearOrderedField α] {l : List α}
    (h : ∀ x ∈ l, 0 ≤ x) (i : ℕ) : 0 ≤ l.getD i 0 := by
  by_cases hi : i < l.length
  · have : l.getD i 0 = l[i] := by
      simp [List.getD_eq_getElem?_getD, List.getElem?_eq_getElem hi]
    rw [this]
    exact h _ (l.getElem_mem hi)
  · rw [List.getD_eq_getElem?_getD, List.getElem?_eq_none (le_of_not_lt hi)]
    exact le_of_eq rfl

/-- Success branch of the extractor: with at least 5 window samples and a
converging solver, `calculate_gaussian_metrics` returns the record derived
from the fitted parameters (app.py lines 189-201). -/
theorem gm_success {α : Type} [LinearOrderedField α]
    (solver : List α → List α → α × α × α × α → Option (α × α × α × α))
    (theta_deg pattern_norm : List α) (a mu sigma offset : α)
    (h5 : ¬ (window_indices theta_deg pattern_norm).length < 5)
    (hs : solver (xdata theta_deg pattern_norm) (ydata theta_deg pattern_norm)
      (p0 theta_deg pattern_norm) = some (a, mu, sigma, offset)) :
    calculate_gaussian_metrics solver theta_deg pattern_norm =
      some { main_lobe_magnitude := a + offset
             main_lobe_direction := mu
             angular_width := some (2.355 * sigma)
             side_lobe_level :=
               some (side_lobe_level_of theta_deg pattern_norm mu) } := by
  rw [calculate_gaussian_metrics, if_neg h5, hs]

/-- C1: the spec requires that a raw pattern with maximum 0 be returned
unchanged, with the division skipped and a DegeneratePattern condition
surfaced.  The code (app.py line 275) has no such guard: it executes
`pattern /= np.max(pattern)` unconditionally, so every sample of an
all-zero raw pattern becomes the non-finite IEEE value 0/0 = NaN
(modelled `none`), not the unchanged zero sample, and no degenerate
condition exists anywhere in the program for it to surface.  This theorem
evaluates the embedded normalization at the failing input. -/
theorem C1_zero_max_normalization_nan :
    normalize_ieee ([0, 0, 0, 0, 0] : List ℚ) =
      [none, none, none, none, none] ∧
    normalize_ieee ([0, 0, 0, 0, 0] : List ℚ) ≠
      ([0, 0, 0, 0, 0] : List ℚ).map some := by
  constructor
  · decide
  · decide

/-- C5: whenever the Gaussian fit is infeasible (fewer than 5 samples in
the window around the peak) or the solver fails to converge, the
module-level metrics are exactly the fallback record: maximum gain, angle
of the (first) peak sample, absent angular width and side-lobe level; the
fit failure is never propagated (the selection is a total function). -/
theorem C5_fallback_on_fit_failure {α : Type} [LinearOrderedField α]
    (solver : List α → List α → α × α × α × α → Option (α × α × α × α))
    (theta_deg pattern : List α)
    (h : (window_indices theta_deg pattern).length < 5 ∨
      solver (xdata theta_deg pattern) (ydata theta_deg pattern)
        (p0 theta_deg pattern) = none) :
    pipeline_metrics solver theta_deg pattern =
      { main_lobe_magnitude := listMax pattern
        main_lobe_direction := theta_deg.getD (argmaxIdx pattern) 0
        angular_width := none
        side_lobe_level := none } := by
  rcases h with h5 | hnone
  · simp [pipeline_metrics, calculate_gaussian_metrics, if_pos h5,
      fallback_metrics]
  · by_cases h5 : (window_indices theta_deg pattern).length < 5
    · simp [pipeline_metrics, calculate_gaussian_metrics, if_pos h5,
        fallback_metrics]
    · simp [pipeline_metrics, calculate_gaussian_metrics, if_neg h5, hnone,
        fallback_metrics]

/-- C5 witness: a 3-sample domain spaced 50 degrees apart leaves a single
sample in the window (1 < 5 would also trigger the fallback); here we
exercise the solver-failure leg: the result is the fallback record. -/
theorem C5_witness :
    pipeline_metrics (fun _ _ _ => none) ([0, 50, 100] : List ℚ) [0, 0, 1] =
      { main_lobe_magnitude := listMax ([0, 0, 1] : List ℚ)
        main_lobe_direction :=
          ([0, 50, 100] : List ℚ).getD (argmaxIdx ([0, 0, 1] : List ℚ)) 0
        angular_width := none
        side_lobe_level := none } :=
  C5_fallback_on_fit_failure (fun _ _ _ => none) [0, 50, 100] [0, 0, 1]
    (Or.inr rfl)

/-- C6 counterexample: the claim states angularWidthDeg = 2.3548 times
sigma, but the code (app.py line 192) multiplies by 2.355.  A successful
fit with sigma = 1 (solver returning (a, mu, sigma, offset) = (1, 90, 1, 0)
on a 5-sample window) yields angular_width 2.355, which differs from
2.3548 * 1. -/
theorem C6_counterexample :
    calculate_gaussian_metrics (fun _ _ _ => some ((1 : ℚ), 90, 1, 0))
      [88, 89, 90, 91, 92] [1, 2, 5, 2, 1] =
      some { main_lobe_magnitude := 1
             main_lobe_direction := 90
             angular_width := some 2.355
             side_lobe_level := some 0 } ∧
    (2.355 : ℚ) ≠ 2.3548 * 1 := by
  constructor
  · norm_num [calculate_gaussian_metrics, window_indices, peak_angle,
      argmaxIdx, listMax, List.findIdx, List.findIdx.go, List.range_succ,
      List.filter, side_lobe_level_of, outside_samples, List.zip]
  · norm_num

/-- C6 (amended): on a successful Gaussian fit with parameters
(a, mu, sigma, offset), the returned metrics satisfy
mainLobeMagnitude = a + offset, mainLobeDirectionDeg = mu, and
angularWidthDeg = 2.355 * sigma (the code rounds the Gaussian FWHM
constant 2*sqrt(2*ln 2) = 2.3548... to 2.355). -/
theorem C6_success_metrics {α : Type} [LinearOrderedField α]
    (solver : List α → List α → α × α × α × α → Option (α × α × α × α))
    (theta_deg pattern_norm : List α) (a mu sigma offset : α)
    (h5 : ¬ (window_indices theta_deg pattern_norm).length < 5)
    (hs : solver (xdata theta_deg pattern_norm) (ydata theta_deg pattern_norm)
      (p0 theta_deg pattern_norm) = some (a, mu, sigma, offset)) :
    (calculate_gaussian_metrics solver theta_deg pattern_norm).map
        Metrics.main_lobe_magnitude = some (a + offset) ∧
    (calculate_gaussian_metrics solver theta_deg pattern_norm).map
        Metrics.main_lobe_direction = some mu ∧
    (calculate_gaussian_metrics solver theta_deg pattern_norm).map
        Metrics.angular_width = some (some (2.355 * sigma)) := by
  rw [gm_success solver theta_deg pattern_norm a mu sigma offset h5 hs]
  exact ⟨rfl, rfl, rfl⟩

/-- C6 witness: the amended success equations at a concrete 5-sample
window and solver output (1, 90, 1, 0). -/
theorem C6_success_metrics_witness :
    (calculate_gaussian_metrics (fun _ _ _ => some ((1 : ℚ), 90, 1, 0))
        [88, 89, 90, 91, 92] [1, 2, 5, 2, 1]).map
      Metrics.angular_width = some (some (2.355 * 1)) := by
  refine (C6_success_metrics (fun _ _ _ => some ((1 : ℚ), 90, 1, 0))
    [88, 89, 90, 91, 92] [1, 2, 5, 2, 1] 1 90 1 0 ?_ rfl).2.2
  norm_num [window_indices, peak_angle, argmaxIdx, listMax, List.findIdx,
    List.findIdx.go, List.range_succ, List.filter]

/-- C7: on a successful fit with center mu, the returned side-lobe level
is the maximum gain among the samples whose angle lies strictly outside
the window [mu - 20, mu + 20]: it bounds every strictly-outside gain, is
attained by one of them when any exist, and equals 0 when no sample lies
strictly outside the window (a handled boundary case, not an error). -/
theorem C7_side_lobe_level {α : Type} [LinearOrderedField α]
    (solver : List α → List α → α × α × α × α → Option (α × α × α × α))
    (theta_deg pattern_norm : List α) (a mu sigma offset : α)
    (h5 : ¬ (window_indices theta_deg pattern_norm).length < 5)
    (hs : solver (xdata theta_deg pattern_norm) (ydata theta_deg pattern_norm)
      (p0 theta_deg pattern_norm) = some (a, mu, sigma, offset)) :
    (calculate_gaussian_metrics solver theta_deg pattern_norm).map
        Metrics.side_lobe_level =
      some (some (side_lobe_level_of theta_deg pattern_norm mu)) ∧
    (outside_samples theta_deg pattern_norm mu = [] →
      side_lobe_level_of theta_deg pattern_norm mu = 0) ∧
    (∀ x ∈ outside_samples theta_deg pattern_norm mu,
      x ≤ side_lobe_level_of theta_deg pattern_norm mu) ∧
    (outside_samples theta_deg pattern_norm mu ≠ [] →
      side_lobe_level_of theta_deg pattern_norm mu ∈
        outside_samples theta_deg pattern_norm mu) := by
  refine ⟨?_, ?_, ?_, ?_⟩
  · rw [gm_success solver theta_deg pattern_norm a mu sigma offset h5 hs]
    rfl
  · intro hempty
    rw [side_lobe_level_of, hempty]
  · intro x hx
    rw [side_lobe_level_of]
    cases hcase : outside_samples theta_deg pattern_norm mu with
    | nil => rw [hcase] at hx; cases hx
    | cons y tl => rw [hcase] at hx; exact le_listMax hx
  · intro hne
    have h1 : side_lobe_level_of theta_deg pattern_norm mu =
        listMax (outside_samples theta_deg pattern_norm mu) := by
      rw [side_lobe_level_of]
      cases outside_samples theta_deg pattern_norm mu with
      | nil => rfl
      | cons y tl => rfl
    rw [h1]
    exact listMax_mem hne

/-- C7 witness: a domain with samples at 0 and 180 degrees strictly
outside the window around the fitted center 90: the returned side-lobe
level is their maximal gain 1/2. -/
theorem C7_side_lobe_level_witness :
    (calculate_gaussian_metrics (fun _ _ _ => some ((1 : ℚ), 90, 1, 0))
        [0, 88, 89, 90, 91, 92, 180] [0, 1, 2, 5, 2, 1, 1/2]).map
      Metrics.side_lobe_level = some (some (1/2)) := by
  have h := (C7_side_lobe_level (fun _ _ _ => some ((1 : ℚ), 90, 1, 0))
    [0, 88, 89, 90, 91, 92, 180] [0, 1, 2, 5, 2, 1, 1/2] 1 90 1 0 ?_ rfl).1
  · rw [h]
    norm_num [side_lobe_level_of, outside_samples, List.zip, List.filter,
      listMax]
  · norm_num [window_indices, peak_angle, argmaxIdx, listMax, List.findIdx,
      List.findIdx.go, List.range_succ, List.filter]

/-- C9: normalization is idempotent on an already-normalized pattern:
when the maximum is 1, `pattern /= np.max(pattern)` divides every sample
by 1 and returns the same values exactly (hence a fortiori within the
1e-9 tolerance of the spec). -/
theorem C9_normalize_idempotent {α : Type} [LinearOrderedField α]
    (pattern : List α) (h : listMax pattern = 1) :
    normalize_ieee pattern = pattern.map some := by
  rw [normalize_ieee]
  apply List.map_congr_left
  intro x _
  rw [h]
  norm_num

/-- C9 witness: an already-normalized two-sample pattern is returned
unchanged. -/
theorem C9_normalize_idempotent_witness :
    normalize_ieee ([1, 1/2] : List ℚ) = [some 1, some (1/2)] := by
  rw [C9_normalize_idempotent ([1, 1/2] : List ℚ) (by norm_num [listMax])]
  rfl

/-- C10: ties at the maximum are resolved to the lowest index: the value
at `argmaxIdx` is the maximum, `argmaxIdx` is at most any maximal index
(so it is the lowest-angle maximal sample of the ascending angle grid),
and both the extractor's window center (`peak_angle`) and the fallback's
main-lobe direction are the angle at this index. -/
theorem C10_first_max_index {α : Type} [LinearOrderedField α]
    (theta_deg pattern : List α) (i : ℕ) (hi : i < pattern.length)
    (hmax : pattern.getD i 0 = listMax pattern) :
    pattern.getD (argmaxIdx pattern) 0 = listMax pattern ∧
    argmaxIdx pattern ≤ i ∧
    peak_angle theta_deg pattern =
      theta_deg.getD (argmaxIdx pattern) 0 ∧
    (fallback_metrics theta_deg pattern).main_lobe_direction =
      theta_deg.getD (argmaxIdx pattern) 0 := by
  have hne : pattern ≠ [] := by
    intro hempty
    rw [hempty] at hi
    cases hi
  exact ⟨getD_argmaxIdx hne, argmaxIdx_le_of_max hi hmax, rfl, rfl⟩

/-- C10 witness: a pattern with two tied maximal samples at indices 1 and
2; the peak index used by both paths is 1, the lowest. -/
theorem C10_first_max_index_witness :
    ([1, 3, 3] : List ℚ).getD (argmaxIdx ([1, 3, 3] : List ℚ)) 0 =
      listMax ([1, 3, 3] : List ℚ) ∧
    argmaxIdx ([1, 3, 3] : List ℚ) ≤ 2 ∧
    peak_angle ([0, 90, 180] : List ℚ) [1, 3, 3] =
      ([0, 90, 180] : List ℚ).getD (argmaxIdx ([1, 3, 3] : List ℚ)) 0 ∧
    (fallback_metrics ([0, 90, 180] : List ℚ) [1, 3, 3]).main_lobe_direction =
      ([0, 90, 180] : List ℚ).getD (argmaxIdx ([1, 3, 3] : List ℚ)) 0 :=
  C10_first_max_index [0, 90, 180] [1, 3, 3] 2 (by decide) (by decide)

/-- A raw array-factor sample is an absolute value, hence nonnegative. -/
theorem ula_af_nonneg (n : ℕ) (d phase t : ℝ) : 0 ≤ ula_af n d phase t := by
  rw [ula_af]
  exact abs_nonneg _

/-- Dipole samples are nonnegative on the [0, pi] domain: the numerator is
an absolute value and the guarded denominator sin t + 1e-9 is positive. -/
theorem dipole_pattern_nonneg (L t : ℝ) (h0 : 0 ≤ t) (hpi : t ≤ Real.pi) :
    0 ≤ dipole_pattern L t := by
  rw [dipole_pattern]
  apply div_nonneg (abs_nonneg _)
  have hs := Real.sin_nonneg_of_nonneg_of_le_pi h0 hpi
  have he : (0 : ℝ) < 1e-9 := by norm_num
  linarith

/-- C2: over the [0, pi] angle domain, every sample produced by the
pattern model is a finite real (exact division is total in the embedding,
mirroring the `np.nan_to_num` sanitization) and is nonnegative, for every
antenna kind and every parameter value. -/
theorem C2_pattern_sanitized (model : AntennaModel) (length_m freq_mhz : ℝ)
    (n : ℕ) (d phase : ℝ) (theta : List ℝ)
    (htheta : ∀ t ∈ theta, 0 ≤ t ∧ t ≤ Real.pi) (i : ℕ) :
    0 ≤ (compute_pattern model length_m freq_mhz n d phase theta).getD i 0 := by
  apply getD_nonneg
  intro x hx
  cases model with
  | dipoleAntenna =>
    simp only [compute_pattern] at hx
    obtain ⟨t, ht, rfl⟩ := List.mem_map.mp hx
    exact dipole_pattern_nonneg _ _ (htheta t ht).1 (htheta t ht).2
  | monopoleAntenna =>
    simp only [compute_pattern] at hx
    obtain ⟨t, ht, rfl⟩ := List.mem_map.mp hx
    exact dipole_pattern_nonneg _ _ (htheta t ht).1 (htheta t ht).2
  | linearArray =>
    simp only [compute_pattern, ula_array_pattern] at hx
    obtain ⟨y, hy, rfl⟩ := List.mem_map.mp hx
    apply div_nonneg
    · obtain ⟨t, ht, rfl⟩ := List.mem_map.mp hy
      exact ula_af_nonneg _ _ _ _
    · apply listMax_nonneg
      intro z hz
      obtain ⟨t, ht, rfl⟩ := List.mem_map.mp hz
      exact ula_af_nonneg _ _ _ _
  | otherModel =>
    simp only [compute_pattern] at hx
    obtain ⟨t, ht, rfl⟩ := List.mem_map.mp hx
    exact abs_nonneg _

/-- C2 witness: the generic placeholder pattern at the single angle 0 is
nonnegative. -/
theorem C2_pattern_sanitized_witness :
    0 ≤ (compute_pattern AntennaModel.otherModel 1 900 8 1 0 [0]).getD 0 0 :=
  C2_pattern_sanitized AntennaModel.otherModel 1 900 8 1 0 [0]
    (by
      intro t ht
      rw [List.mem_singleton] at ht
      subst ht
      exact ⟨le_refl 0, Real.pi_nonneg⟩) 0

/-- C3 counterexample: the claim states that the N = 1 array pattern is
the constant 1.0 at every angle, but the epsilon guard prevents the
sin(psi/2) cancellation: with d = 1/2, phase = 0, on the grid
[0, pi/2], the sample at theta = pi/2 (where psi = 0) is 0, not 1. -/
theorem C3_counterexample :
    (ula_array_pattern 1 (1/2) 0 [0, Real.pi/2]).getD 1 0 = 0 ∧
    (ula_array_pattern 1 (1/2) 0 [0, Real.pi/2]).getD 1 0 ≠ 1 := by
  have hpsi : psi (1/2) 0 (Real.pi/2) = 0 := by
    rw [psi, Real.cos_pi_div_two]
    ring
  have hf : ula_af 1 (1/2) 0 (Real.pi/2) = 0 := by
    rw [ula_af, hpsi]
    norm_num
  have h : (ula_array_pattern 1 (1/2) 0 [0, Real.pi/2]).getD 1 0 = 0 := by
    rw [ula_array_pattern]
    simp only [List.map_cons, List.map_nil, List.getD_cons_succ,
      List.getD_cons_zero]
    rw [hf, zero_div]
  exact ⟨h, by rw [h]; norm_num⟩

/-- C3 (amended): with N = 1 the epsilon-guarded array factor does not
cancel exactly: at any angle where sin(psi/2) = 0 the raw array-factor
sample is 0 (and after self-normalization the pattern sample there is 0,
not 1); the N = 1 pattern is therefore not constantly 1. -/
theorem C3_single_element_zero (d phase t : ℝ)
    (h : Real.sin (psi d phase t / 2) = 0) : ula_af 1 d phase t = 0 := by
  rw [ula_af, Nat.cast_one, one_mul, h]
  simp

/-- C3 witness: at broadside (theta = pi/2) with d = 1/2 and zero phase,
psi = 0, so the single-element array factor sample is 0. -/
theorem C3_single_element_zero_witness : ula_af 1 (1/2) 0 (Real.pi/2) = 0 :=
  C3_single_element_zero (1/2) 0 (Real.pi/2)
    (by
      have hpsi : psi (1/2) 0 (Real.pi/2) = 0 := by
        rw [psi, Real.cos_pi_div_two]
        ring
      rw [hpsi]
      norm_num)

/-- C4 counterexample: the claim states that inputs with frequency <= 0
are rejected with an InvalidParameter error before reaching the pattern
model, with no pattern computed.  The calculation layer (app.py
lines 261-275) performs no such check: handed frequency -900 (a value the
UI sliders cannot produce but nothing in the code rejects), it computes a
one-sample pattern whose gain is positive.  There is no error channel in
the computation at all (the embedding is a total function). -/
theorem C4_counterexample :
    (compute_pattern AntennaModel.dipoleAntenna (1/2) (-900) 8 (1/2) 0
      [Real.pi/2]).length = 1 ∧
    0 < (compute_pattern AntennaModel.dipoleAntenna (1/2) (-900) 8 (1/2) 0
      [Real.pi/2]).getD 0 0 := by
  constructor
  · simp [compute_pattern]
  · have hlen : ((1:ℝ)/2) / (3e8 / (-900 * 1e6)) = -(3/2) := by norm_num
    have hcos32 : Real.cos (2 * Real.pi * (-(3/2)) / 2) = 0 := by
      have h32 : 2 * Real.pi * (-(3/2)) / 2 = -(Real.pi + Real.pi/2) := by
        ring
      rw [h32, Real.cos_neg, Real.cos_add, Real.cos_pi_div_two,
        Real.sin_pi, Real.cos_pi, Real.sin_pi_div_two]
      ring
    have hval : dipole_pattern (-(3/2)) (Real.pi/2) = 1 / (1 + 1e-9) := by
      rw [dipole_pattern, Real.cos_pi_div_two, Real.sin_pi_div_two,
        mul_zero, Real.cos_zero, hcos32]
      norm_num
    simp only [compute_pattern, List.map, hlen, List.getD_cons_zero, hval]
    norm_num

/-- C4 (amended): the program has no InvalidParameter check in the
calculation layer; instead the input boundary is the set of slider
widgets, whose ranges make the invalid values unrepresentable: any values
within the slider ranges satisfy frequency > 0, length > 0, N >= 1 (the
slider even enforces N >= 2) and spacing > 0, so no invalid parameter can
reach the pattern model through the UI.  Values bypassing the sliders are
not rejected (see the counterexample). -/
theorem C4_slider_bounds_imply_valid (L f nq d : ℚ)
    (hL : inSlider ParamName.antennaLength L)
    (hf : inSlider ParamName.operatingFrequency f)
    (hn : inSlider ParamName.arrayElements nq)
    (hd : inSlider ParamName.elementSpacing d) :
    0 < f ∧ 0 < L ∧ 1 ≤ nq ∧ 0 < d := by
  obtain ⟨s1, hs1, h1a, _⟩ := hL
  obtain ⟨s2, hs2, h2a, _⟩ := hf
  obtain ⟨s3, hs3, h3a, _⟩ := hn
  obtain ⟨s4, hs4, h4a, _⟩ := hd
  simp only [get_param_input, Option.some.injEq] at hs1 hs2 hs3 hs4
  subst hs1
  subst hs2
  subst hs3
  subst hs4
  have h1 : (1/100 : ℚ) ≤ L := h1a
  have h2 : (100 : ℚ) ≤ f := h2a
  have h3 : (2 : ℚ) ≤ nq := h3a
  have h4 : (1/10 : ℚ) ≤ d := h4a
  refine ⟨by linarith, by linarith, by linarith, by linarith⟩

/-- C4 witness: the default slider values (length 1/2 m, frequency
900 MHz, N = 8, spacing 1/2 wavelength) are within range and valid. -/
theorem C4_slider_bounds_witness :
    0 < (900 : ℚ) ∧ 0 < (1/2 : ℚ) ∧ 1 ≤ (8 : ℚ) ∧ 0 < (1/2 : ℚ) :=
  C4_slider_bounds_imply_valid (1/2) 900 8 (1/2)
    ⟨_, rfl, by norm_num, by norm_num⟩
    ⟨_, rfl, by norm_num, by norm_num⟩
    ⟨_, rfl, by norm_num, by norm_num⟩
    ⟨_, rfl, by norm_num, by norm_num⟩

/-- For the half-wave dipole (length 1/2 wavelength) the numerator
reduces to the absolute cosine term: cos(pi/2) = 0. -/
theorem dipole_half_wave (t : ℝ) :
    dipole_pattern (1/2) t =
      |Real.cos (Real.pi / 2 * Real.cos t)| / (Real.sin t + 1e-9) := by
  rw [dipole_pattern]
  have h1 : 2 * Real.pi * (1/2) / 2 = Real.pi / 2 := by ring
  rw [h1, Real.cos_pi_div_two, sub_zero]

/-- Jordan-inequality bound: on [0, pi] the half-wave dipole numerator is
at most sin t. -/
theorem abs_cos_le_sin (t : ℝ) (h0 : 0 ≤ t) (hpi : t ≤ Real.pi) :
    |Real.cos (Real.pi / 2 * Real.cos t)| ≤ Real.sin t := by
  have hc1 : |Real.cos t| ≤ 1 := Real.abs_cos_le_one t
  have hsin : 0 ≤ Real.sin t := Real.sin_nonneg_of_nonneg_of_le_pi h0 hpi
  have hhalf : (0:ℝ) < Real.pi / 2 := by
    have := Real.pi_pos
    linarith
  have hxle : Real.pi / 2 * |Real.cos t| ≤ Real.pi / 2 := by
    calc Real.pi / 2 * |Real.cos t| ≤ Real.pi / 2 * 1 :=
          mul_le_mul_of_nonneg_left hc1 (le_of_lt hhalf)
      _ = Real.pi / 2 := mul_one _
  have hxpos : 0 ≤ Real.pi / 2 * |Real.cos t| :=
    mul_nonneg (le_of_lt hhalf) (abs_nonneg _)
  have habs : |Real.cos (Real.pi / 2 * Real.cos t)| =
      Real.cos (Real.pi / 2 * |Real.cos t|) := by
    have heven : Real.cos (Real.pi / 2 * |Real.cos t|) =
        Real.cos (Real.pi / 2 * Real.cos t) := by
      rw [← Real.cos_abs (Real.pi / 2 * Real.cos t), abs_mul,
        abs_of_pos hhalf]
    rw [heven]
    apply abs_of_nonneg
    rw [← heven]
    apply Real.cos_nonneg_of_mem_Icc
    constructor
    · linarith
    · exact hxle
  have hJ : |Real.cos t| ≤ Real.sin (Real.pi / 2 * |Real.cos t|) := by
    have := Real.mul_le_sin hxpos hxle
    have heq : 2 / Real.pi * (Real.pi / 2 * |Real.cos t|) = |Real.cos t| := by
      field_simp
      ring
    rw [heq] at this
    exact this
  have hsq : Real.cos (Real.pi / 2 * |Real.cos t|) ^ 2 ≤ Real.sin t ^ 2 := by
    have h1 : Real.cos (Real.pi / 2 * |Real.cos t|) ^ 2 =
        1 - Real.sin (Real.pi / 2 * |Real.cos t|) ^ 2 := Real.cos_sq' _
    have h2 : Real.sin t ^ 2 = 1 - Real.cos t ^ 2 := Real.sin_sq t
    have h3 : |Real.cos t| ^ 2 ≤ Real.sin (Real.pi / 2 * |Real.cos t|) ^ 2 :=
      pow_le_pow_left₀ (abs_nonneg _) hJ 2
    have h4 : |Real.cos t| ^ 2 = Real.cos t ^ 2 := sq_abs _
    linarith
  rw [habs]
  exact le_of_pow_le_pow_left₀ two_ne_zero hsin hsq

/-- Every half-wave dipole sample on [0, pi] is at most the broadside
value 1 / (1 + 1e-9). -/
theorem dipole_le_broadside (t : ℝ) (h0 : 0 ≤ t) (hpi : t ≤ Real.pi) :
    dipole_pattern (1/2) t ≤ 1 / (1 + 1e-9) := by
  rw [dipole_half_wave]
  have hkey := abs_cos_le_sin t h0 hpi
  have habs1 : |Real.cos (Real.pi / 2 * Real.cos t)| ≤ 1 :=
    Real.abs_cos_le_one _
  have habs0 : 0 ≤ |Real.cos (Real.pi / 2 * Real.cos t)| := abs_nonneg _
  have hsin : 0 ≤ Real.sin t := Real.sin_nonneg_of_nonneg_of_le_pi h0 hpi
  rw [div_le_div_iff₀ (by linarith : (0:ℝ) < Real.sin t + 1e-9)
    (by norm_num : (0:ℝ) < 1 + 1e-9)]
  nlinarith

/-- The half-wave dipole broadside sample: numerator 1, guarded
denominator 1 + 1e-9. -/
theorem dipole_broadside :
    dipole_pattern (1/2) (Real.pi/2) = 1 / (1 + 1e-9) := by
  rw [dipole_half_wave, Real.cos_pi_div_two, Real.sin_pi_div_two, mul_zero,
    Real.cos_zero]
  norm_num

/-- The half-wave dipole sample vanishes where cos t = 1 or cos t = -1
(the endpoints 0 and pi): the numerator is |cos(pi/2)| = 0 exactly. -/
theorem dipole_zero_endpoint (t : ℝ)
    (h : Real.cos t = 1 ∨ Real.cos t = -1) : dipole_pattern (1/2) t = 0 := by
  rw [dipole_half_wave]
  rcases h with h | h <;> rw [h] <;> simp [Real.cos_pi_div_two]

/-- On a grid inside [0, pi] containing pi/2, the raw half-wave dipole
pattern attains its maximum at pi/2. -/
theorem listMax_map_dipole (grid : List ℝ)
    (hg : ∀ t ∈ grid, 0 ≤ t ∧ t ≤ Real.pi) (hmem : Real.pi/2 ∈ grid) :
    listMax (grid.map (dipole_pattern (1/2))) = 1 / (1 + 1e-9) := by
  apply le_antisymm
  · apply listMax_le
    · intro hcontra
      exact (List.ne_nil_of_mem hmem) (List.map_eq_nil_iff.mp hcontra)
    · intro x hx
      obtain ⟨t, ht, rfl⟩ := List.mem_map.mp hx
      exact dipole_le_broadside t (hg t ht).1 (hg t ht).2
  · rw [← dipole_broadside]
    exact le_listMax (List.mem_map_of_mem _ hmem)

/-- C8: on any angle grid inside [0, pi] that contains the broadside
angle pi/2, the pipeline-normalized half-wave dipole pattern equals 1.0
at the sample at pi/2 and 0.0 at the samples at 0 and at pi. -/
theorem C8_half_wave_broadside (grid : List ℝ)
    (hg : ∀ t ∈ grid, 0 ≤ t ∧ t ≤ Real.pi) (hmem : Real.pi/2 ∈ grid)
    (i : ℕ) (hi : i < grid.length) :
    (grid[i] = Real.pi/2 →
      (normalize (grid.map (dipole_pattern (1/2)))).getD i 0 = 1) ∧
    (grid[i] = 0 →
      (normalize (grid.map (dipole_pattern (1/2)))).getD i 0 = 0) ∧
    (grid[i] = Real.pi →
      (normalize (grid.map (dipole_pattern (1/2)))).getD i 0 = 0) := by
  have hM := listMax_map_dipole grid hg hmem
  have hval : (normalize (grid.map (dipole_pattern (1/2)))).getD i 0 =
      dipole_pattern (1/2) grid[i] / (1 / (1 + 1e-9)) := by
    rw [normalize]
    have hi3 : i < ((grid.map (dipole_pattern (1/2))).map
        (fun x => x /
          listMax (grid.map (dipole_pattern (1/2))))).length := by
      simpa using hi
    rw [List.getD_eq_getElem?_getD, List.getElem?_eq_getElem hi3]
    simp only [Option.getD_some, List.getElem_map]
    simp only [hM]
  refine ⟨?_, ?_, ?_⟩
  · intro hpt
    rw [hval, hpt, dipole_broadside]
    norm_num
  · intro hpt
    rw [hval, hpt, dipole_zero_endpoint 0 (Or.inl Real.cos_zero), zero_div]
  · intro hpt
    rw [hval, hpt, dipole_zero_endpoint Real.pi (Or.inr Real.cos_pi),
      zero_div]

/-- C8 witness: on the grid [0, pi/2, pi] the normalized half-wave dipole
pattern is 1 at the broadside sample (index 1). -/
theorem C8_half_wave_broadside_witness :
    (normalize (([0, Real.pi/2, Real.pi]).map (dipole_pattern (1/2)))).getD
      1 0 = 1 := by
  have hg : ∀ t ∈ [(0:ℝ), Real.pi/2, Real.pi], 0 ≤ t ∧ t ≤ Real.pi := by
    intro t ht
    have hpi := Real.pi_pos
    rcases List.mem_cons.mp ht with rfl | ht2
    · exact ⟨le_refl 0, le_of_lt hpi⟩
    rcases List.mem_cons.mp ht2 with rfl | ht3
    · constructor <;> linarith
    rcases List.mem_cons.mp ht3 with rfl | ht4
    · exact ⟨le_of_lt hpi, le_refl _⟩
    · cases ht4
  have hmem : Real.pi/2 ∈ [(0:ℝ), Real.pi/2, Real.pi] := by simp
  have hi : 1 < ([(0:ℝ), Real.pi/2, Real.pi]).length := by simp
  exact (C8_half_wave_broadside [0, Real.pi/2, Real.pi] hg hmem 1 hi).1 rfl

end AntennaViz
